import Mathlib

/-!
Verification of the oracle-ark data-aggregation pipeline.

Shallow embedding of `src/types.rs`, `src/aggregation.rs` and
`src/parallel.rs`.  Rust `f64` values are modelled as rationals (`ℚ`);
machine floats only appear through the sentinel constants `f64::MAX` /
`f64::MIN`, which are embedded as the exact rational values of those
floats.  Fallible Rust functions returning `Result<_, Box<dyn Error>>`
are embedded as `Except String _`, carrying the error's display string.
Network fetching (`sources.rs`) is I/O and is abstracted as an oracle
parameter `fetches`; thread-completion nondeterminism is modelled by
quantifying over every permutation of the shared results vector.
-/

namespace Oracle

/-- `types.rs` `DataValue`: number, text, or boolean. -/
inductive DataValue where
  | Number (n : ℚ)
  | Text (s : String)
  | Boolean (b : Bool)
deriving DecidableEq, Repr

/-- `types.rs` `DataValue::as_number`: numbers pass through,
booleans become `1.0` / `0.0`, text has no numeric value. -/
def DataValue.as_number : DataValue → Option ℚ
  | .Number n => some n
  | .Boolean b => some (if b then 1 else 0)
  | .Text _ => none

/-- `types.rs` `AggregationMethod`. -/
inductive AggregationMethod where
  | Average
  | Median
  | WeightedAvg
deriving DecidableEq, Repr

/-- `types.rs` `PriceSource` (the `custom` configuration only drives the
network fetch, which is abstracted away, so it is not carried here). -/
structure PriceSource where
  name : String
  id : Option String
deriving DecidableEq, Repr

/-- `types.rs` `DataRequest`. -/
structure DataRequest where
  id : String
  sources : List PriceSource
  aggregation_method : AggregationMethod
  min_sources_num : ℕ
deriving DecidableEq, Repr

/-- `types.rs` `PriceData`. -/
structure PriceData where
  value : DataValue
  timestamp : ℕ
  sources : List String
deriving DecidableEq, Repr

/-- `types.rs` `DataResponse`. -/
structure DataResponse where
  id : String
  data : Option PriceData
  message : Option String
deriving DecidableEq, Repr

/-- `types.rs` `SourcePrice`: one successful reading from one source. -/
structure SourcePrice where
  source_name : String
  value : DataValue
  timestamp : ℕ
deriving DecidableEq, Repr

/-- Exact rational value of `f64::MAX`. -/
def f64MAX : ℚ := (2 ^ 53 - 1) * 2 ^ 971

/-- Exact rational value of `f64::MIN` (`= -f64::MAX`). -/
def f64MIN : ℚ := -f64MAX

/-- The numeric values of a list of readings (the
`prices.iter().filter_map(|p| p.value.as_number())` pattern used
throughout `aggregation.rs`). -/
def numericValues (prices : List SourcePrice) : List ℚ :=
  prices.filterMap (fun p => p.value.as_number)

/-- Round a rational to the nearest integer, ties to even
(the rounding Rust's fixed-precision float formatting performs). -/
def roundHalfEven (x : ℚ) : ℤ :=
  let f := ⌊x⌋
  let frac := x - f
  if frac < 1 / 2 then f
  else if 1 / 2 < frac then f + 1
  else if f % 2 = 0 then f else f + 1

/-- Model of Rust's `format!("{:.prec$}", v)` for a (finite) float `v`:
sign, integer part, `.`, and exactly `prec` fraction digits after
rounding the magnitude half-to-even at the `prec`-th decimal. -/
def fmtFixed (prec : ℕ) (q : ℚ) : String :=
  let sign := if q < 0 then "-" else ""
  let n := (roundHalfEven (|q| * 10 ^ prec)).toNat
  let ip := n / 10 ^ prec
  let fp := n % 10 ^ prec
  let fs := toString fp
  sign ++ toString ip ++ "." ++ String.mk (List.replicate (prec - fs.length) '0') ++ fs

/-- `aggregation.rs` `calculate_average`: arithmetic mean of the numeric
values; error when none exist. -/
def calculate_average (prices : List SourcePrice) : Except String ℚ :=
  let numbers := prices.filterMap (fun p => p.value.as_number)
  if numbers.isEmpty then .error "No numeric values to aggregate"
  else .ok (numbers.sum / numbers.length)

/-- `aggregation.rs` `calculate_median`: sort the numeric values
ascending; odd count takes the middle element, even count the mean of
the two middle elements.  The indices are guarded by the emptiness
check, so the `getD` defaults are never used. -/
def calculate_median (prices : List SourcePrice) : Except String ℚ :=
  let sorted_prices := prices.filterMap (fun p => p.value.as_number)
  if sorted_prices.isEmpty then .error "No numeric values to aggregate"
  else
    let sorted_prices := List.insertionSort (· ≤ ·) sorted_prices
    let len := sorted_prices.length
    if len % 2 = 0 then
      .ok ((sorted_prices.getD (len / 2 - 1) 0 + sorted_prices.getD (len / 2) 0) / 2)
    else
      .ok (sorted_prices.getD (len / 2) 0)

/-- `aggregation.rs` `calculate_weighted_average`: currently equal
weights, delegating to `calculate_average`. -/
def calculate_weighted_average (prices : List SourcePrice) : Except String ℚ :=
  calculate_average prices

/-- `aggregation.rs` `aggregate_prices`. -/
def aggregate_prices (prices : List SourcePrice) (method : AggregationMethod) :
    Except String ℚ :=
  if prices.isEmpty then .error "No prices to aggregate"
  else
    match method with
    | .Average => calculate_average prices
    | .Median => calculate_median prices
    | .WeightedAvg => calculate_weighted_average prices

/-- `aggregation.rs` `calculate_price_deviation`: percentage spread
between the smallest and largest numeric value.  The Rust loop keeps a
running minimum initialised to `f64::MAX` and a running maximum
initialised to `f64::MIN`; it is embedded as a fold over the pair. -/
def calculate_price_deviation (prices : List SourcePrice) : ℚ :=
  let numbers := prices.filterMap (fun p => p.value.as_number)
  if numbers.length < 2 then 0
  else
    let mm := numbers.foldl
      (fun (mm : ℚ × ℚ) price =>
        ((if price < mm.1 then price else mm.1),
         (if price > mm.2 then price else mm.2)))
      (f64MAX, f64MIN)
    if mm.1 = 0 then 100
    else ((mm.2 - mm.1) / mm.1) * 100

/-- The `avg` / `median` / `weighted` label of `parallel.rs` lines 241-245. -/
def aggregationLabel : AggregationMethod → String
  | .Average => "avg"
  | .Median => "median"
  | .WeightedAvg => "weighted"

/-- `parallel.rs` `process_fetched_data`, success path (lines 184-272
after the early returns): builds the successful `DataResponse`, with the
per-source detail message when the readings are numeric and more than
one source responded. -/
def mkSuccessResponse (data_req : DataRequest) (source_prices : List SourcePrice)
    (errors : List String) (final_value : DataValue) : DataResponse :=
  let has_numeric := source_prices.any (fun p => p.value.as_number.isSome)
  let latest_timestamp := ((source_prices.map (fun p => p.timestamp)).max?).getD 0
  let source_names := source_prices.map (fun p => p.source_name)
  let message := if errors.isEmpty then none else some (String.intercalate ", " errors)
  let detailed_message :=
    if has_numeric ∧ 1 < source_prices.length then
      let source_details := source_prices.filterMap
        (fun p => p.value.as_number.map (fun n => p.source_name ++ ": " ++ fmtFixed 6 n))
      let aggregation_label := aggregationLabel data_req.aggregation_method
      match final_value with
      | .Number final_price =>
        let details := String.intercalate ", " source_details
        let agg_info := details ++ ", " ++ aggregation_label ++ ": " ++ fmtFixed 6 final_price
        if errors.isEmpty then some agg_info
        else some (agg_info ++ ". Errors: " ++ String.intercalate ", " errors)
      | _ => message
    else message
  { id := data_req.id,
    data := some { value := final_value, timestamp := latest_timestamp,
                   sources := source_names },
    message := detailed_message }

/-- The quorum-failure early return of `process_fetched_data`
(lines 169-182). -/
def quorumFailureResponse (data_req : DataRequest) (source_prices : List SourcePrice)
    (errors : List String) : DataResponse :=
  { id := data_req.id,
    data := none,
    message := some ("Not enough sources responded (" ++ toString source_prices.length
      ++ "/" ++ toString data_req.min_sources_num ++ "). Errors: "
      ++ String.intercalate ", " errors) }

/-- The deviation-guard early return of `process_fetched_data`
(lines 204-215). -/
def deviationFailureResponse (data_req : DataRequest)
    (deviation max_deviation : ℚ) : DataResponse :=
  { id := data_req.id,
    data := none,
    message := some ("Price deviation too high: " ++ fmtFixed 2 deviation
      ++ "% (max: " ++ fmtFixed 2 max_deviation ++ "%)") }

/-- The numeric path of `process_fetched_data` after the deviation guard
has passed (lines 217-227 feeding into the success builder): aggregate,
and on aggregation error return the `Aggregation failed` response. -/
def numericPathContinue (data_req : DataRequest) (source_prices : List SourcePrice)
    (errors : List String) : DataResponse :=
  match aggregate_prices source_prices data_req.aggregation_method with
  | .ok price => mkSuccessResponse data_req source_prices errors (DataValue.Number price)
  | .error e =>
    { id := data_req.id, data := none,
      message := some ("Aggregation failed: " ++ e) }

/-- `parallel.rs` `process_fetched_data`.  The Rust `source_prices[0]`
on the passthrough path panics (index out of bounds) when the list is
empty; the panic is modelled as `none`, every normal return as `some`. -/
def process_fetched_data (data_req : DataRequest) (source_prices : List SourcePrice)
    (errors : List String) (max_deviation : ℚ) : Option DataResponse :=
  if source_prices.length < data_req.min_sources_num then
    some (quorumFailureResponse data_req source_prices errors)
  else
    let has_numeric := source_prices.any (fun p => p.value.as_number.isSome)
    if has_numeric then
      let deviation := calculate_price_deviation source_prices
      if deviation > max_deviation then
        some (deviationFailureResponse data_req deviation max_deviation)
      else
        some (numericPathContinue data_req source_prices errors)
    else
      (source_prices.head?).map
        (fun p => mkSuccessResponse data_req source_prices errors p.value)

/-- One thread body of `process_data_requests_parallel` (lines 121-138):
fetch the readings for request `i` and process them.  The network fetch
`fetch_prices_parallel` is I/O and is abstracted by the oracle `fetches`,
which yields the `(source_prices, errors)` pair each request observes. -/
def processOne (max_deviation : ℚ) (fetches : ℕ → List SourcePrice × List String)
    (i : ℕ) (data_req : DataRequest) : Option DataResponse :=
  process_fetched_data data_req (fetches i).1 (fetches i).2 max_deviation

/-- The indexed `(index, response)` pairs the threads of
`process_data_requests_parallel` push into the shared results vector
(line 136), listed in submission order. -/
def indexedResponses (requests : List DataRequest) (max_deviation : ℚ)
    (fetches : ℕ → List SourcePrice × List String) : List (ℕ × Option DataResponse) :=
  requests.enum.map (fun p => (p.1, processOne max_deviation fetches p.1 p.2))

/-- `parallel.rs` `process_data_requests_parallel`, final phase
(lines 148-155): the shared results vector `collected` — whose order is
the nondeterministic thread-completion order, any permutation of
`indexedResponses` — is sorted by index and the indices are dropped. -/
def process_data_requests_parallel (collected : List (ℕ × Option DataResponse)) :
    List (Option DataResponse) :=
  (List.insertionSort (fun a b => a.1 ≤ b.1) collected).map Prod.snd

/-! ### Helper lemmas -/

/-- Evaluate `fmtFixed 2` at the rational `5`. -/
theorem fmtFixed_two_five : fmtFixed 2 (5 : ℚ) = "5.00" := by
  have e : |(5 : ℚ)| * 10 ^ 2 = 500 := by
    rw [abs_of_nonneg (by norm_num : (0 : ℚ) ≤ 5)]; norm_num
  have h : roundHalfEven (|(5 : ℚ)| * 10 ^ 2) = (500 : ℤ) := by
    rw [roundHalfEven, e]; norm_num
  rw [fmtFixed, h, if_neg (by norm_num : ¬ (5 : ℚ) < 0)]
  decide

/-- Evaluate `fmtFixed 2` at the rational `2`. -/
theorem fmtFixed_two_two : fmtFixed 2 (2 : ℚ) = "2.00" := by
  have e : |(2 : ℚ)| * 10 ^ 2 = 200 := by
    rw [abs_of_nonneg (by norm_num : (0 : ℚ) ≤ 2)]; norm_num
  have h : roundHalfEven (|(2 : ℚ)| * 10 ^ 2) = (200 : ℤ) := by
    rw [roundHalfEven, e]; norm_num
  rw [fmtFixed, h, if_neg (by norm_num : ¬ (2 : ℚ) < 0)]
  decide

/-- Evaluate `fmtFixed 6` at the rational `5`. -/
theorem fmtFixed_six_five : fmtFixed 6 (5 : ℚ) = "5.000000" := by
  have e : |(5 : ℚ)| * 10 ^ 6 = 5000000 := by
    rw [abs_of_nonneg (by norm_num : (0 : ℚ) ≤ 5)]; norm_num
  have h : roundHalfEven (|(5 : ℚ)| * 10 ^ 6) = (5000000 : ℤ) := by
    rw [roundHalfEven, e]; norm_num
  rw [fmtFixed, h, if_neg (by norm_num : ¬ (5 : ℚ) < 0)]
  decide

/-- Evaluate `fmtFixed 6` at the rational `10`. -/
theorem fmtFixed_six_ten : fmtFixed 6 (10 : ℚ) = "10.000000" := by
  have e : |(10 : ℚ)| * 10 ^ 6 = 10000000 := by
    rw [abs_of_nonneg (by norm_num : (0 : ℚ) ≤ 10)]; norm_num
  have h : roundHalfEven (|(10 : ℚ)| * 10 ^ 6) = (10000000 : ℤ) := by
    rw [roundHalfEven, e]; norm_num
  rw [fmtFixed, h, if_neg (by norm_num : ¬ (10 : ℚ) < 0)]
  decide

/-- Evaluate `fmtFixed 6` at the rational `20`. -/
theorem fmtFixed_six_twenty : fmtFixed 6 (20 : ℚ) = "20.000000" := by
  have e : |(20 : ℚ)| * 10 ^ 6 = 20000000 := by
    rw [abs_of_nonneg (by norm_num : (0 : ℚ) ≤ 20)]; norm_num
  have h : roundHalfEven (|(20 : ℚ)| * 10 ^ 6) = (20000000 : ℤ) := by
    rw [roundHalfEven, e]; norm_num
  rw [fmtFixed, h, if_neg (by norm_num : ¬ (20 : ℚ) < 0)]
  decide

/-- Evaluate `fmtFixed 6` at the rational `15`. -/
theorem fmtFixed_six_fifteen : fmtFixed 6 (15 : ℚ) = "15.000000" := by
  have e : |(15 : ℚ)| * 10 ^ 6 = 15000000 := by
    rw [abs_of_nonneg (by norm_num : (0 : ℚ) ≤ 15)]; norm_num
  have h : roundHalfEven (|(15 : ℚ)| * 10 ^ 6) = (15000000 : ℤ) := by
    rw [roundHalfEven, e]; norm_num
  rw [fmtFixed, h, if_neg (by norm_num : ¬ (15 : ℚ) < 0)]
  decide

/-! ### C7: weighted average coincides with average -/

/-- C7: for every list of readings, `aggregate_prices` with
`WeightedAvg` returns exactly what it returns with `Average`, while
`WeightedAvg` stays a distinct constructor of the method enum; on
`[10, 20, 30]` both methods yield `20`. -/
theorem weightedAvg_eq_average :
    (∀ prices : List SourcePrice,
      aggregate_prices prices AggregationMethod.WeightedAvg =
        aggregate_prices prices AggregationMethod.Average) ∧
    AggregationMethod.WeightedAvg ≠ AggregationMethod.Average ∧
    aggregate_prices [⟨"a", .Number 10, 0⟩, ⟨"b", .Number 20, 0⟩, ⟨"c", .Number 30, 0⟩]
      AggregationMethod.Average = .ok 20 ∧
    aggregate_prices [⟨"a", .Number 10, 0⟩, ⟨"b", .Number 20, 0⟩, ⟨"c", .Number 30, 0⟩]
      AggregationMethod.WeightedAvg = .ok 20 := by
  have havg : aggregate_prices
      [⟨"a", .Number 10, 0⟩, ⟨"b", .Number 20, 0⟩, ⟨"c", .Number 30, 0⟩]
      AggregationMethod.Average = .ok 20 := by
    rw [aggregate_prices.eq_def]
    simp only [List.isEmpty, if_false, calculate_average, List.filterMap,
      DataValue.as_number, List.sum_cons, List.sum_nil, List.length]
    norm_num
  exact ⟨fun prices => rfl, by decide, havg, havg⟩

/-! ### C8: aggregation cannot fail on the numeric path -/

/-- C8: whenever some reading has a numeric value (the numeric-path
branch condition), `aggregate_prices` returns `Ok` for every
aggregation method: the error branches are unreachable there. -/
theorem aggregate_ok_on_numeric_path (prices : List SourcePrice)
    (method : AggregationMethod)
    (h : ∃ p ∈ prices, p.value.as_number.isSome) :
    ∃ q, aggregate_prices prices method = .ok q := by
  obtain ⟨p, hp, hsome⟩ := h
  obtain ⟨n, hn⟩ := Option.isSome_iff_exists.mp hsome
  have hmem : n ∈ prices.filterMap (fun p => p.value.as_number) :=
    List.mem_filterMap.mpr ⟨p, hp, hn⟩
  have hne : prices.filterMap (fun p => p.value.as_number) ≠ [] :=
    List.ne_nil_of_mem hmem
  have hnotE : (prices.filterMap (fun p => p.value.as_number)).isEmpty = false := by
    simpa [List.isEmpty_iff] using hne
  have hpne : prices.isEmpty = false := by
    simp [List.isEmpty_iff]
    exact List.ne_nil_of_mem hp
  rw [aggregate_prices.eq_def, hpne]
  simp only [Bool.false_eq_true, if_false]
  cases method with
  | Average =>
    rw [calculate_average, hnotE]
    exact ⟨_, rfl⟩
  | Median =>
    rw [calculate_median, hnotE]
    simp only [Bool.false_eq_true, if_false]
    by_cases hlen : (List.insertionSort (· ≤ ·)
        (prices.filterMap (fun p => p.value.as_number))).length % 2 = 0
    · rw [if_pos hlen]; exact ⟨_, rfl⟩
    · rw [if_neg hlen]; exact ⟨_, rfl⟩
  | WeightedAvg =>
    rw [calculate_weighted_average, calculate_average, hnotE]
    exact ⟨_, rfl⟩

/-- Witness for C8 at a concrete input: one numeric and one text
reading, aggregated by median. -/
theorem aggregate_ok_on_numeric_path_witness :
    ∃ q, aggregate_prices [⟨"a", .Number 7, 0⟩, ⟨"b", .Text "x", 0⟩]
      AggregationMethod.Median = .ok q :=
  aggregate_ok_on_numeric_path _ _ ⟨⟨"a", .Number 7, 0⟩, by simp, by rfl⟩

/-! ### C5: quorum failure -/

/-- C5: when fewer sources succeeded than `min_sources_num`, the
response is a terminal failure carrying no data, whose message reports
the success count over the required count and joins all collected
failure messages with `", "`; nothing else (no deviation check, no
aggregation) contributes to the response. -/
theorem quorum_failure_exact (data_req : DataRequest)
    (source_prices : List SourcePrice) (errors : List String) (max_deviation : ℚ)
    (h : source_prices.length < data_req.min_sources_num) :
    process_fetched_data data_req source_prices errors max_deviation =
      some { id := data_req.id,
             data := none,
             message := some ("Not enough sources responded ("
               ++ toString source_prices.length ++ "/"
               ++ toString data_req.min_sources_num ++ "). Errors: "
               ++ String.intercalate ", " errors) } := by
  rw [process_fetched_data, if_pos h]
  rfl

/-- Witness for C5: `min_sources_num = 2`, one success out of three
sources, two failure messages: the message reports `1/2` and joins the
two causes. -/
theorem quorum_failure_exact_witness :
    process_fetched_data ⟨"btc", [], .Average, 2⟩ [⟨"a", .Number 5, 0⟩]
      ["b: timeout", "c: http 500"] 10 =
      some { id := "btc", data := none,
             message := some
               "Not enough sources responded (1/2). Errors: b: timeout, c: http 500" } := by
  rw [quorum_failure_exact ⟨"btc", [], .Average, 2⟩ [⟨"a", .Number 5, 0⟩]
    ["b: timeout", "c: http 500"] 10 (by decide)]
  decide

/-! ### C4: deviation guard -/

/-- C4: on the numeric path with quorum satisfied, a deviation above
`max_deviation` makes the whole request fail — no data, and exactly the
`Price deviation too high` message with both percentages to two
decimals; when the deviation does not exceed the threshold the guard
does not fire and processing continues into aggregation. -/
theorem deviation_guard (data_req : DataRequest) (source_prices : List SourcePrice)
    (errors : List String) (max_deviation : ℚ)
    (hq : ¬ source_prices.length < data_req.min_sources_num)
    (hn : source_prices.any (fun p => p.value.as_number.isSome) = true) :
    (calculate_price_deviation source_prices > max_deviation →
      process_fetched_data data_req source_prices errors max_deviation =
        some { id := data_req.id, data := none,
               message := some ("Price deviation too high: "
                 ++ fmtFixed 2 (calculate_price_deviation source_prices)
                 ++ "% (max: " ++ fmtFixed 2 max_deviation ++ "%)") }) ∧
    (¬ calculate_price_deviation source_prices > max_deviation →
      process_fetched_data data_req source_prices errors max_deviation =
        some (numericPathContinue data_req source_prices errors)) := by
  constructor <;> intro hd <;> rw [process_fetched_data, if_neg hq] <;>
    simp only [hn, if_true]
  · rw [if_pos hd]; rfl
  · rw [if_neg hd]

/-- Witness for C4: readings `100` and `105` give deviation `5`, above
the threshold `2`: the request fails with the exact message. -/
theorem deviation_guard_witness :
    process_fetched_data ⟨"btc", [], .Average, 1⟩
      [⟨"a", .Number 100, 0⟩, ⟨"b", .Number 105, 0⟩] [] 2 =
      some { id := "btc", data := none,
             message := some "Price deviation too high: 5.00% (max: 2.00%)" } := by
  have hdev : calculate_price_deviation
      [⟨"a", .Number 100, 0⟩, ⟨"b", .Number 105, 0⟩] = 5 := by
    rw [calculate_price_deviation]
    simp only [List.filterMap, DataValue.as_number, List.length, List.foldl]
    norm_num [f64MAX, f64MIN]
  rw [(deviation_guard ⟨"btc", [], .Average, 1⟩
      [⟨"a", .Number 100, 0⟩, ⟨"b", .Number 105, 0⟩] [] 2
      (by decide) (by decide)).1 (by rw [hdev]; norm_num)]
  rw [hdev, fmtFixed_two_five, fmtFixed_two_two]
  decide

/-! ### C10: quorum pass implies the passthrough index is safe -/

/-- C10: with `min_sources_num ≥ 1`, passing the quorum check forces a
non-empty reading list, so the passthrough `source_prices[0]` is in
bounds and processing always yields a response; the precondition is
necessary: with `min_sources_num = 0` and no successful readings the
quorum check passes and the passthrough indexing is out of bounds
(modelled as `none`). -/
theorem quorum_pass_index_safety :
    (∀ (data_req : DataRequest) (source_prices : List SourcePrice)
        (errors : List String) (max_deviation : ℚ),
        1 ≤ data_req.min_sources_num →
        ¬ source_prices.length < data_req.min_sources_num →
        source_prices ≠ [] ∧
          (process_fetched_data data_req source_prices errors max_deviation).isSome
            = true) ∧
    (¬ ([] : List SourcePrice).length
        < (DataRequest.mk "x" [] .Average 0).min_sources_num) ∧
    process_fetched_data ⟨"x", [], .Average, 0⟩ [] [] 10 = none := by
  refine ⟨?_, by decide, by decide⟩
  intro data_req sp errs md h1 h2
  have hne : sp ≠ [] := by
    intro h
    subst h
    simp only [List.length_nil] at h2
    omega
  refine ⟨hne, ?_⟩
  rw [process_fetched_data]
  by_cases hq : sp.length < data_req.min_sources_num
  · rw [if_pos hq]; rfl
  · rw [if_neg hq]
    by_cases hn : sp.any (fun p => p.value.as_number.isSome) = true
    · simp only [hn, if_true]
      by_cases hd : calculate_price_deviation sp > md
      · rw [if_pos hd]; rfl
      · rw [if_neg hd]; rfl
    · have hn' : sp.any (fun p => p.value.as_number.isSome) = false :=
        Bool.not_eq_true _ ▸ Bool.of_not_eq_true hn
      simp only [hn', Bool.false_eq_true, if_false]
      cases sp with
      | nil => exact absurd rfl hne
      | cons a t => rfl

/-- Witness for C10 applied at a concrete request with
`min_sources_num = 1` and one boolean reading. -/
theorem quorum_pass_index_safety_witness :
    [(⟨"s", .Boolean false, 0⟩ : SourcePrice)] ≠ [] ∧
      (process_fetched_data ⟨"flag", [], .Average, 1⟩
        [⟨"s", .Boolean false, 0⟩] [] 10).isSome = true :=
  quorum_pass_index_safety.1 ⟨"flag", [], .Average, 1⟩
    [⟨"s", .Boolean false, 0⟩] [] 10 (by decide) (by decide)

/-! ### C6: median -/

/-- C6: for readings with at least one numeric value, `calculate_median`
returns the middle element of the sorted numeric values (odd count) or
the mean of the two middle elements (even count); `[1,2,3]` gives `2`
and `[1,2,3,4]` gives `5/2`. -/
theorem median_of_sorted :
    (∀ prices : List SourcePrice,
      prices.filterMap (fun p => p.value.as_number) ≠ [] →
      ∃ sorted : List ℚ,
        sorted.Perm (prices.filterMap (fun p => p.value.as_number)) ∧
        sorted.Sorted (· ≤ ·) ∧
        calculate_median prices = .ok
          (if sorted.length % 2 = 0 then
            (sorted.getD (sorted.length / 2 - 1) 0 + sorted.getD (sorted.length / 2) 0) / 2
          else sorted.getD (sorted.length / 2) 0)) ∧
    calculate_median [⟨"a", .Number 1, 0⟩, ⟨"b", .Number 2, 0⟩, ⟨"c", .Number 3, 0⟩]
      = .ok 2 ∧
    calculate_median [⟨"a", .Number 1, 0⟩, ⟨"b", .Number 2, 0⟩, ⟨"c", .Number 3, 0⟩,
      ⟨"d", .Number 4, 0⟩] = .ok (5 / 2) := by
  refine ⟨?_, ?_, ?_⟩
  · intro prices h
    refine ⟨List.insertionSort (· ≤ ·) (prices.filterMap fun p => p.value.as_number),
      List.perm_insertionSort _ _, List.sorted_insertionSort _ _, ?_⟩
    have hE : (prices.filterMap (fun p => p.value.as_number)).isEmpty = false := by
      simpa [List.isEmpty_iff] using h
    rw [calculate_median, hE]
    simp only [Bool.false_eq_true, if_false]
    split <;> rfl
  · rw [calculate_median]
    simp only [List.filterMap, DataValue.as_number, List.isEmpty, List.insertionSort,
      List.orderedInsert]
    norm_num [List.getD, List.get?]
  · rw [calculate_median]
    simp only [List.filterMap, DataValue.as_number, List.isEmpty, List.insertionSort,
      List.orderedInsert]
    norm_num [List.getD, List.get?]

/-- Witness for C6 at a two-element reading list. -/
theorem median_of_sorted_witness :
    ∃ sorted : List ℚ,
      sorted.Perm (([⟨"a", .Number 9, 0⟩, ⟨"b", .Number 3, 0⟩] :
        List SourcePrice).filterMap (fun p => p.value.as_number)) ∧
      sorted.Sorted (· ≤ ·) ∧
      calculate_median [⟨"a", .Number 9, 0⟩, ⟨"b", .Number 3, 0⟩] = .ok
        (if sorted.length % 2 = 0 then
          (sorted.getD (sorted.length / 2 - 1) 0 + sorted.getD (sorted.length / 2) 0) / 2
        else sorted.getD (sorted.length / 2) 0) :=
  median_of_sorted.1 [⟨"a", .Number 9, 0⟩, ⟨"b", .Number 3, 0⟩] (by decide)

/-! ### C3: price deviation formula -/

/-- The paired min/max fold of `calculate_price_deviation` splits into
an independent min fold and max fold. -/
theorem foldl_pair_min_max (l : List ℚ) (a b : ℚ) :
    l.foldl (fun mm price => ((if price < mm.1 then price else mm.1),
      (if price > mm.2 then price else mm.2))) (a, b) =
    (l.foldl (fun m price => if price < m then price else m) a,
     l.foldl (fun m price => if price > m then price else m) b) := by
  induction l generalizing a b with
  | nil => rfl
  | cons x t ih => simp only [List.foldl_cons, ih]

/-- The running-minimum fold lands on its seed or on a list element. -/
theorem foldl_min_mem (l : List ℚ) (a : ℚ) :
    l.foldl (fun m price => if price < m then price else m) a ∈ a :: l := by
  induction l generalizing a with
  | nil => simp
  | cons x t ih =>
    simp only [List.foldl_cons]
    rcases List.mem_cons.mp (ih (if x < a then x else a)) with h | h
    · rw [h]
      split
      · exact List.mem_cons_of_mem _ (List.mem_cons_self _ _)
      · exact List.mem_cons_self _ _
    · exact List.mem_cons_of_mem _ (List.mem_cons_of_mem _ h)

/-- The running-minimum fold is below its seed and every list element. -/
theorem foldl_min_le (l : List ℚ) (a : ℚ) :
    ∀ x ∈ a :: l, l.foldl (fun m price => if price < m then price else m) a ≤ x := by
  induction l generalizing a with
  | nil =>
    intro x hx
    rcases List.mem_cons.mp hx with h | h
    · rw [h]; exact le_refl a
    · cases h
  | cons y t ih =>
    intro x hx
    have hstep_a : (if y < a then y else a) ≤ a := by
      split
      · exact le_of_lt (by assumption)
      · exact le_refl a
    have hstep_y : (if y < a then y else a) ≤ y := by
      split
      · exact le_refl y
      · exact le_of_not_lt (by assumption)
    have hfold : t.foldl (fun m price => if price < m then price else m)
        (if y < a then y else a) ≤ (if y < a then y else a) :=
      ih _ _ (List.mem_cons_self _ _)
    simp only [List.foldl_cons]
    rcases List.mem_cons.mp hx with h | h
    · rw [h]; exact le_trans hfold hstep_a
    · rcases List.mem_cons.mp h with h' | h'
      · rw [h']; exact le_trans hfold hstep_y
      · exact ih _ _ (List.mem_cons_of_mem _ h')

/-- The running-maximum fold lands on its seed or on a list element. -/
theorem foldl_max_mem (l : List ℚ) (b : ℚ) :
    l.foldl (fun m price => if price > m then price else m) b ∈ b :: l := by
  induction l generalizing b with
  | nil => simp
  | cons x t ih =>
    simp only [List.foldl_cons]
    rcases List.mem_cons.mp (ih (if x > b then x else b)) with h | h
    · rw [h]
      split
      · exact List.mem_cons_of_mem _ (List.mem_cons_self _ _)
      · exact List.mem_cons_self _ _
    · exact List.mem_cons_of_mem _ (List.mem_cons_of_mem _ h)

/-- The running-maximum fold is above its seed and every list element. -/
theorem foldl_max_ge (l : List ℚ) (b : ℚ) :
    ∀ x ∈ b :: l, x ≤ l.foldl (fun m price => if price > m then price else m) b := by
  induction l generalizing b with
  | nil =>
    intro x hx
    rcases List.mem_cons.mp hx with h | h
    · rw [h]; exact le_refl b
    · cases h
  | cons y t ih =>
    intro x hx
    have hstep_b : b ≤ (if y > b then y else b) := by
      split
      · exact le_of_lt (by assumption)
      · exact le_refl b
    have hstep_y : y ≤ (if y > b then y else b) := by
      split
      · exact le_refl y
      · exact le_of_not_lt (by assumption)
    have hfold : (if y > b then y else b) ≤
        t.foldl (fun m price => if price > m then price else m) (if y > b then y else b) :=
      ih _ _ (List.mem_cons_self _ _)
    simp only [List.foldl_cons]
    rcases List.mem_cons.mp hx with h | h
    · rw [h]; exact le_trans hstep_b hfold
    · rcases List.mem_cons.mp h with h' | h'
      · rw [h']; exact le_trans hstep_y hfold
      · exact ih _ _ (List.mem_cons_of_mem _ h')

/-- Unfolding of `calculate_price_deviation` into the two independent
folds, for at least two numeric readings. -/
theorem calculate_price_deviation_eq (prices : List SourcePrice)
    (h2 : ¬ (prices.filterMap (fun p => p.value.as_number)).length < 2) :
    calculate_price_deviation prices =
      (if (prices.filterMap (fun p => p.value.as_number)).foldl
            (fun m price => if price < m then price else m) f64MAX = 0 then 100
       else (((prices.filterMap (fun p => p.value.as_number)).foldl
                (fun m price => if price > m then price else m) f64MIN
              - (prices.filterMap (fun p => p.value.as_number)).foldl
                (fun m price => if price < m then price else m) f64MAX)
             / (prices.filterMap (fun p => p.value.as_number)).foldl
                (fun m price => if price < m then price else m) f64MAX) * 100) := by
  rw [calculate_price_deviation, if_neg h2]
  simp only [foldl_pair_min_max]

/-- C3: `calculate_price_deviation` returns `0` with fewer than two
numeric readings; otherwise, for f64-range values, it returns `100`
when the minimum numeric value is `0` and `(max - min) / min * 100`
when it is not; `[100, 105]` gives `5` and `[0, 5]` gives `100`. -/
theorem price_deviation_formula :
    (∀ prices : List SourcePrice,
      (prices.filterMap (fun p => p.value.as_number)).length < 2 →
      calculate_price_deviation prices = 0) ∧
    (∀ prices : List SourcePrice,
      2 ≤ (prices.filterMap (fun p => p.value.as_number)).length →
      (∀ x ∈ prices.filterMap (fun p => p.value.as_number), |x| ≤ f64MAX) →
      ∃ mn mx, mn ∈ prices.filterMap (fun p => p.value.as_number) ∧
        mx ∈ prices.filterMap (fun p => p.value.as_number) ∧
        (∀ x ∈ prices.filterMap (fun p => p.value.as_number), mn ≤ x ∧ x ≤ mx) ∧
        (mn = 0 → calculate_price_deviation prices = 100) ∧
        (mn ≠ 0 → calculate_price_deviation prices = ((mx - mn) / mn) * 100)) ∧
    calculate_price_deviation [⟨"a", .Number 100, 0⟩, ⟨"b", .Number 105, 0⟩] = 5 ∧
    calculate_price_deviation [⟨"a", .Number 0, 0⟩, ⟨"b", .Number 5, 0⟩] = 100 := by
  refine ⟨?_, ?_, ?_, ?_⟩
  · intro prices h
    rw [calculate_price_deviation, if_pos h]
  · intro prices h2 hbound
    have hne : prices.filterMap (fun p => p.value.as_number) ≠ [] := by
      intro h
      rw [h] at h2
      simp at h2
    obtain ⟨y, hy⟩ := List.exists_mem_of_ne_nil _ hne
    have hmn_le : ∀ x ∈ prices.filterMap (fun p => p.value.as_number),
        (prices.filterMap (fun p => p.value.as_number)).foldl
          (fun m price => if price < m then price else m) f64MAX ≤ x := fun x hx =>
      foldl_min_le _ f64MAX x (List.mem_cons_of_mem _ hx)
    have hmx_ge : ∀ x ∈ prices.filterMap (fun p => p.value.as_number),
        x ≤ (prices.filterMap (fun p => p.value.as_number)).foldl
          (fun m price => if price > m then price else m) f64MIN := fun x hx =>
      foldl_max_ge _ f64MIN x (List.mem_cons_of_mem _ hx)
    have hmn_mem : (prices.filterMap (fun p => p.value.as_number)).foldl
        (fun m price => if price < m then price else m) f64MAX
        ∈ prices.filterMap (fun p => p.value.as_number) := by
      rcases List.mem_cons.mp (foldl_min_mem (prices.filterMap
          (fun p => p.value.as_number)) f64MAX) with h | h
      · have h1 := hmn_le y hy
        have h2' : y ≤ (prices.filterMap (fun p => p.value.as_number)).foldl
            (fun m price => if price < m then price else m) f64MAX := by
          rw [h]
          exact le_trans (le_abs_self y) (hbound y hy)
        have hyE : y = (prices.filterMap (fun p => p.value.as_number)).foldl
            (fun m price => if price < m then price else m) f64MAX :=
          le_antisymm h2' h1
        rw [← hyE]
        exact hy
      · exact h
    have hmx_mem : (prices.filterMap (fun p => p.value.as_number)).foldl
        (fun m price => if price > m then price else m) f64MIN
        ∈ prices.filterMap (fun p => p.value.as_number) := by
      rcases List.mem_cons.mp (foldl_max_mem (prices.filterMap
          (fun p => p.value.as_number)) f64MIN) with h | h
      · have h1 := hmx_ge y hy
        have h2' : (prices.filterMap (fun p => p.value.as_number)).foldl
            (fun m price => if price > m then price else m) f64MIN ≤ y := by
          rw [h, f64MIN]
          exact le_trans (neg_le_neg (hbound y hy)) (neg_abs_le y)
        have hyE : y = (prices.filterMap (fun p => p.value.as_number)).foldl
            (fun m price => if price > m then price else m) f64MIN :=
          le_antisymm h1 h2'
        rw [← hyE]
        exact hy
      · exact h
    refine ⟨_, _, hmn_mem, hmx_mem, fun x hx => ⟨hmn_le x hx, hmx_ge x hx⟩, ?_, ?_⟩
    · intro h0
      rw [calculate_price_deviation_eq prices (not_lt.mpr h2), if_pos h0]
    · intro h0
      rw [calculate_price_deviation_eq prices (not_lt.mpr h2), if_neg h0]
  · rw [calculate_price_deviation]
    simp only [List.filterMap, DataValue.as_number, List.length, List.foldl]
    norm_num [f64MAX, f64MIN]
  · rw [calculate_price_deviation]
    simp only [List.filterMap, DataValue.as_number, List.length, List.foldl]
    norm_num [f64MAX, f64MIN]

/-- Witness for C3 at readings `[100, 105]`. -/
theorem price_deviation_formula_witness :
    ∃ mn mx,
      mn ∈ ([⟨"a", .Number 100, 0⟩, ⟨"b", .Number 105, 0⟩] :
        List SourcePrice).filterMap (fun p => p.value.as_number) ∧
      mx ∈ ([⟨"a", .Number 100, 0⟩, ⟨"b", .Number 105, 0⟩] :
        List SourcePrice).filterMap (fun p => p.value.as_number) ∧
      (∀ x ∈ ([⟨"a", .Number 100, 0⟩, ⟨"b", .Number 105, 0⟩] :
        List SourcePrice).filterMap (fun p => p.value.as_number), mn ≤ x ∧ x ≤ mx) ∧
      (mn = 0 → calculate_price_deviation
        [⟨"a", .Number 100, 0⟩, ⟨"b", .Number 105, 0⟩] = 100) ∧
      (mn ≠ 0 → calculate_price_deviation
        [⟨"a", .Number 100, 0⟩, ⟨"b", .Number 105, 0⟩] = ((mx - mn) / mn) * 100) := by
  refine price_deviation_formula.2.1 [⟨"a", .Number 100, 0⟩, ⟨"b", .Number 105, 0⟩]
    (by decide) ?_
  intro x hx
  have hx' : x = 100 ∨ x = 105 := by
    simpa [List.filterMap, DataValue.as_number] using hx
  rcases hx' with rfl | rfl <;>
    rw [abs_of_nonneg (by norm_num)] <;> norm_num [f64MAX]

/-! ### C2: booleans are numeric, not passthrough -/

/-- A single reading whose value is `Boolean true` takes the numeric
path (its `as_number` is `1.0`) and, under a passing quorum and a
non-negative deviation threshold, produces the value `Number 1` —
not the boolean verbatim. -/
theorem process_single_boolean_true (data_req : DataRequest) (p : SourcePrice)
    (max_deviation : ℚ) (hp : p.value = .Boolean true)
    (hmin : data_req.min_sources_num ≤ 1) (hmd : 0 ≤ max_deviation) :
    process_fetched_data data_req [p] [] max_deviation =
      some { id := data_req.id,
             data := some { value := .Number 1, timestamp := p.timestamp,
                            sources := [p.source_name] },
             message := none } := by
  have hq : ¬ ([p] : List SourcePrice).length < data_req.min_sources_num := by
    simp only [List.length_cons, List.length_nil]
    omega
  have hn : ([p] : List SourcePrice).any (fun q => q.value.as_number.isSome) = true := by
    simp [hp, DataValue.as_number]
  have hfm : ([p] : List SourcePrice).filterMap (fun q => q.value.as_number) = [1] := by
    simp [List.filterMap, hp, DataValue.as_number]
  have hlen : (([p] : List SourcePrice).filterMap
      (fun q => q.value.as_number)).length < 2 := by
    rw [hfm]
    simp
  have hdev : calculate_price_deviation [p] = 0 := by
    rw [calculate_price_deviation, if_pos hlen]
  have hone : ((1 : ℚ) + 0) / (1 : ℕ) = 1 := by norm_num
  have hagg : aggregate_prices [p] data_req.aggregation_method = .ok 1 := by
    rw [aggregate_prices.eq_def]
    cases data_req.aggregation_method with
    | Average =>
      simp only [List.isEmpty]
      rw [calculate_average, hfm]
      norm_num
    | Median =>
      simp only [List.isEmpty]
      rw [calculate_median, hfm]
      norm_num [List.insertionSort, List.orderedInsert, List.getD, List.get?]
    | WeightedAvg =>
      simp only [List.isEmpty]
      rw [calculate_weighted_average, calculate_average, hfm]
      norm_num
  rw [process_fetched_data, if_neg hq]
  simp only [hn, if_true]
  rw [hdev, if_neg (not_lt.mpr hmd), numericPathContinue.eq_def, hagg]
  show some (mkSuccessResponse data_req [p] [] (DataValue.Number 1)) =
    some { id := data_req.id,
           data := some { value := .Number 1, timestamp := p.timestamp,
                          sources := [p.source_name] },
           message := none }
  rw [mkSuccessResponse.eq_def]
  simp [List.max?]

/-- C2 (amended): the claim's passthrough reading of booleans fails on
the code — `as_number` maps `Boolean true` to `1.0`, so a pure-boolean
reading set takes the numeric path and a single `true` source yields
`Number 1` (still with no aggregation label in the message); the
passthrough path returning the first reading's value verbatim applies
exactly when no reading has an `as_number` value, i.e. all readings are
text. -/
theorem boolean_true_numeric_path :
    (∀ (data_req : DataRequest) (p : SourcePrice) (max_deviation : ℚ),
      p.value = .Boolean true → data_req.min_sources_num ≤ 1 → 0 ≤ max_deviation →
      process_fetched_data data_req [p] [] max_deviation =
        some { id := data_req.id,
               data := some { value := .Number 1, timestamp := p.timestamp,
                              sources := [p.source_name] },
               message := none }) ∧
    (∀ (data_req : DataRequest) (source_prices : List SourcePrice)
        (errors : List String) (max_deviation : ℚ) (p : SourcePrice),
      source_prices.head? = some p →
      ¬ source_prices.length < data_req.min_sources_num →
      (∀ q ∈ source_prices, q.value.as_number = none) →
      process_fetched_data data_req source_prices errors max_deviation =
        some (mkSuccessResponse data_req source_prices errors p.value)) := by
  constructor
  · exact process_single_boolean_true
  · intro data_req source_prices errors max_deviation p hp hq hall
    have hn : source_prices.any (fun q => q.value.as_number.isSome) = false := by
      rw [List.any_eq_false]
      intro q hqmem
      rw [hall q hqmem]
      simp
    rw [process_fetched_data, if_neg hq]
    simp only [hn, Bool.false_eq_true, if_false]
    rw [hp]
    rfl

/-- Witness for C2 (amended), at a concrete boolean-true request and a
concrete all-text passthrough request. -/
theorem boolean_true_numeric_path_witness :
    process_fetched_data ⟨"flag", [], .Median, 1⟩ [⟨"s", .Boolean true, 3⟩] [] 5 =
      some { id := "flag",
             data := some { value := .Number 1, timestamp := 3, sources := ["s"] },
             message := none } ∧
    process_fetched_data ⟨"txt", [], .Average, 1⟩ [⟨"t", .Text "hello", 4⟩] [] 5 =
      some (mkSuccessResponse ⟨"txt", [], .Average, 1⟩ [⟨"t", .Text "hello", 4⟩] []
        (DataValue.Text "hello")) :=
  ⟨boolean_true_numeric_path.1 ⟨"flag", [], .Median, 1⟩ ⟨"s", .Boolean true, 3⟩ 5
      rfl (by decide) (by norm_num),
   boolean_true_numeric_path.2 ⟨"txt", [], .Average, 1⟩ [⟨"t", .Text "hello", 4⟩] [] 5
      ⟨"t", .Text "hello", 4⟩ rfl (by decide) (by decide)⟩

/-- Counterexample for C2 as stated: a single source succeeding with
`Boolean true` (quorum passing) yields the value `Number 1`, which is
not the boolean `true` verbatim. -/
theorem boolean_true_counterexample :
    process_fetched_data ⟨"req", [], .Average, 1⟩ [⟨"s", .Boolean true, 7⟩] [] 10 =
      some { id := "req",
             data := some { value := .Number 1, timestamp := 7, sources := ["s"] },
             message := none } ∧
    ((process_fetched_data ⟨"req", [], .Average, 1⟩
        [⟨"s", .Boolean true, 7⟩] [] 10).bind (fun r => r.data)).map
      (fun d => d.value) ≠ some (DataValue.Boolean true) := by
  have h := process_single_boolean_true ⟨"req", [], .Average, 1⟩ ⟨"s", .Boolean true, 7⟩
    10 rfl (by decide) (by norm_num)
  refine ⟨h, ?_⟩
  rw [h]
  decide

/-! ### C9: the success-path detail message -/

/-- General shape of the successful numeric-path response: the detail
line (per-source values to six decimals plus the aggregation label,
with failures appended after `". Errors: "`) appears exactly when more
than one source succeeded, numeric or not. -/
theorem process_success_detail (data_req : DataRequest)
    (source_prices : List SourcePrice) (errors : List String)
    (max_deviation : ℚ) (price : ℚ)
    (hq : ¬ source_prices.length < data_req.min_sources_num)
    (hn : source_prices.any (fun p => p.value.as_number.isSome) = true)
    (hd : ¬ calculate_price_deviation source_prices > max_deviation)
    (ha : aggregate_prices source_prices data_req.aggregation_method = .ok price) :
    process_fetched_data data_req source_prices errors max_deviation =
      some { id := data_req.id,
             data := some { value := .Number price,
                            timestamp :=
                              ((source_prices.map (fun p => p.timestamp)).max?).getD 0,
                            sources := source_prices.map (fun p => p.source_name) },
             message :=
               if 1 < source_prices.length then
                 (if errors.isEmpty then
                    some (String.intercalate ", " (source_prices.filterMap (fun p =>
                        p.value.as_number.map
                          (fun n => p.source_name ++ ": " ++ fmtFixed 6 n)))
                      ++ ", " ++ aggregationLabel data_req.aggregation_method
                      ++ ": " ++ fmtFixed 6 price)
                  else
                    some (String.intercalate ", " (source_prices.filterMap (fun p =>
                        p.value.as_number.map
                          (fun n => p.source_name ++ ": " ++ fmtFixed 6 n)))
                      ++ ", " ++ aggregationLabel data_req.aggregation_method
                      ++ ": " ++ fmtFixed 6 price
                      ++ ". Errors: " ++ String.intercalate ", " errors))
               else
                 (if errors.isEmpty then none
                  else some (String.intercalate ", " errors)) } := by
  rw [process_fetched_data, if_neg hq]
  simp only [hn, if_true]
  rw [if_neg hd, numericPathContinue.eq_def, ha]
  show some (mkSuccessResponse data_req source_prices errors (DataValue.Number price)) = _
  simp only [mkSuccessResponse.eq_def, hn, eq_self_iff_true, true_and]

/-- C9 (amended): the claim's trigger is wrong on the code — the detail
line appears exactly when *more than one source succeeded* (of any
kind), not when more than one numeric reading contributed; its content
lists each numeric reading's raw value to six decimals plus the
aggregation label, with collected failures appended after `". Errors: "`
exactly when failures occurred alongside a satisfied quorum. -/
theorem numeric_detail_message (data_req : DataRequest)
    (source_prices : List SourcePrice) (errors : List String)
    (max_deviation : ℚ) (price : ℚ)
    (hq : ¬ source_prices.length < data_req.min_sources_num)
    (hn : source_prices.any (fun p => p.value.as_number.isSome) = true)
    (hd : ¬ calculate_price_deviation source_prices > max_deviation)
    (ha : aggregate_prices source_prices data_req.aggregation_method = .ok price) :
    process_fetched_data data_req source_prices errors max_deviation =
      some { id := data_req.id,
             data := some { value := .Number price,
                            timestamp :=
                              ((source_prices.map (fun p => p.timestamp)).max?).getD 0,
                            sources := source_prices.map (fun p => p.source_name) },
             message :=
               if 1 < source_prices.length then
                 (if errors.isEmpty then
                    some (String.intercalate ", " (source_prices.filterMap (fun p =>
                        p.value.as_number.map
                          (fun n => p.source_name ++ ": " ++ fmtFixed 6 n)))
                      ++ ", " ++ aggregationLabel data_req.aggregation_method
                      ++ ": " ++ fmtFixed 6 price)
                  else
                    some (String.intercalate ", " (source_prices.filterMap (fun p =>
                        p.value.as_number.map
                          (fun n => p.source_name ++ ": " ++ fmtFixed 6 n)))
                      ++ ", " ++ aggregationLabel data_req.aggregation_method
                      ++ ": " ++ fmtFixed 6 price
                      ++ ". Errors: " ++ String.intercalate ", " errors))
               else
                 (if errors.isEmpty then none
                  else some (String.intercalate ", " errors)) } :=
  process_success_detail data_req source_prices errors max_deviation price hq hn hd ha

/-- Counterexample for C9 as stated: one numeric and one text reading —
only one numeric reading contributed, yet the response message carries
the per-source detail line with the `avg` label. -/
theorem numeric_detail_counterexample :
    process_fetched_data ⟨"r", [], .Average, 1⟩
      [⟨"a", .Number 5, 0⟩, ⟨"b", .Text "x", 0⟩] [] 10 =
      some { id := "r",
             data := some { value := .Number 5, timestamp := 0, sources := ["a", "b"] },
             message := some "a: 5.000000, avg: 5.000000" } ∧
    (([⟨"a", .Number 5, 0⟩, ⟨"b", .Text "x", 0⟩] :
      List SourcePrice).filterMap (fun p => p.value.as_number)).length = 1 := by
  refine ⟨?_, by decide⟩
  have hdev : calculate_price_deviation
      [⟨"a", .Number 5, 0⟩, ⟨"b", .Text "x", 0⟩] = 0 := by
    rw [calculate_price_deviation, if_pos (by decide)]
  have hagg : aggregate_prices [⟨"a", .Number 5, 0⟩, ⟨"b", .Text "x", 0⟩]
      AggregationMethod.Average = .ok 5 := by
    rw [aggregate_prices.eq_def]
    simp only [List.isEmpty]
    rw [calculate_average]
    simp only [List.filterMap, DataValue.as_number, List.isEmpty, List.sum_cons,
      List.sum_nil, List.length]
    norm_num
  rw [process_success_detail ⟨"r", [], .Average, 1⟩
    [⟨"a", .Number 5, 0⟩, ⟨"b", .Text "x", 0⟩] [] 10 5
    (by decide) (by decide) (by rw [hdev]; norm_num) hagg]
  rw [if_pos (by decide : 1 < ([⟨"a", .Number 5, 0⟩, ⟨"b", .Text "x", 0⟩] :
    List SourcePrice).length)]
  rw [if_pos (by decide : ([] : List String).isEmpty = true)]
  simp only [List.filterMap, DataValue.as_number, Option.map, aggregationLabel,
    fmtFixed_six_five, List.map, List.max?]
  decide

/-- Witness for C9 (amended): two numeric readings with one failed
source — the message lists both raw values, the `avg` label and the
failure after `". Errors: "`. -/
theorem numeric_detail_message_witness :
    process_fetched_data ⟨"r", [], .Average, 1⟩
      [⟨"a", .Number 10, 1⟩, ⟨"b", .Number 20, 2⟩] ["c: boom"] 200 =
      some { id := "r",
             data := some { value := .Number 15, timestamp := 2, sources := ["a", "b"] },
             message :=
               some "a: 10.000000, b: 20.000000, avg: 15.000000. Errors: c: boom" } := by
  have hdev : calculate_price_deviation
      [⟨"a", .Number 10, 1⟩, ⟨"b", .Number 20, 2⟩] = 100 := by
    rw [calculate_price_deviation]
    simp only [List.filterMap, DataValue.as_number, List.length, List.foldl]
    norm_num [f64MAX, f64MIN]
  have hagg : aggregate_prices [⟨"a", .Number 10, 1⟩, ⟨"b", .Number 20, 2⟩]
      AggregationMethod.Average = .ok 15 := by
    rw [aggregate_prices.eq_def]
    simp only [List.isEmpty]
    rw [calculate_average]
    simp only [List.filterMap, DataValue.as_number, List.isEmpty, List.sum_cons,
      List.sum_nil, List.length]
    norm_num
  rw [numeric_detail_message ⟨"r", [], .Average, 1⟩
    [⟨"a", .Number 10, 1⟩, ⟨"b", .Number 20, 2⟩] ["c: boom"] 200 15
    (by decide) (by decide) (by rw [hdev]; norm_num) hagg]
  rw [if_pos (by decide : 1 < ([⟨"a", .Number 10, 1⟩, ⟨"b", .Number 20, 2⟩] :
    List SourcePrice).length)]
  rw [if_neg (by decide : ¬ (["c: boom"] : List String).isEmpty = true)]
  simp only [List.filterMap, DataValue.as_number, Option.map, aggregationLabel,
    fmtFixed_six_ten, fmtFixed_six_twenty, fmtFixed_six_fifteen, List.map, List.max?]
  decide

/-! ### C1: batch ordering -/

/-- Every response `process_fetched_data` produces carries the id of
the request it was computed for. -/
theorem process_fetched_data_id (data_req : DataRequest)
    (source_prices : List SourcePrice) (errors : List String)
    (max_deviation : ℚ) (resp : DataResponse)
    (h : process_fetched_data data_req source_prices errors max_deviation = some resp) :
    resp.id = data_req.id := by
  rw [process_fetched_data] at h
  by_cases hq : source_prices.length < data_req.min_sources_num
  · rw [if_pos hq] at h
    injection h with h
    rw [← h]
    rfl
  · rw [if_neg hq] at h
    by_cases hn : source_prices.any (fun p => p.value.as_number.isSome) = true
    · simp only [hn, if_true] at h
      by_cases hd : calculate_price_deviation source_prices > max_deviation
      · rw [if_pos hd] at h
        injection h with h
        rw [← h]
        rfl
      · rw [if_neg hd] at h
        injection h with h
        rw [← h, numericPathContinue.eq_def]
        cases hagg : aggregate_prices source_prices data_req.aggregation_method with
        | ok q => rfl
        | error e => rfl
    · have hn' : source_prices.any (fun p => p.value.as_number.isSome) = false :=
        Bool.not_eq_true _ ▸ Bool.of_not_eq_true hn
      simp only [hn', Bool.false_eq_true, if_false] at h
      cases source_prices with
      | nil => simp at h
      | cons a t =>
        injection h with h
        rw [← h]
        rfl

/-- C1: whatever order the per-request threads completed in (any
permutation of the indexed shared results vector), the batch output has
exactly one response per request, in submission order: the `i`-th
output is the response computed for the `i`-th request and carries that
request's id. -/
theorem batch_order_preserved (requests : List DataRequest) (max_deviation : ℚ)
    (fetches : ℕ → List SourcePrice × List String)
    (collected : List (ℕ × Option DataResponse))
    (hperm : collected.Perm (indexedResponses requests max_deviation fetches)) :
    process_data_requests_parallel collected =
      requests.enum.map (fun p => processOne max_deviation fetches p.1 p.2) ∧
    (process_data_requests_parallel collected).length = requests.length ∧
    ∀ (i : ℕ) (hi : i < requests.length),
      (process_data_requests_parallel collected).getD i none =
        processOne max_deviation fetches i (requests.get ⟨i, hi⟩) ∧
      ∀ resp, processOne max_deviation fetches i (requests.get ⟨i, hi⟩) = some resp →
        resp.id = (requests.get ⟨i, hi⟩).id := by
  have hperm2 : (List.insertionSort (fun a b => a.1 ≤ b.1) collected).Perm
      (indexedResponses requests max_deviation fetches) :=
    (List.perm_insertionSort _ collected).trans hperm
  have htargetKeys : List.Pairwise (fun a b : ℕ × Option DataResponse => a.1 < b.1)
      (indexedResponses requests max_deviation fetches) := by
    rw [indexedResponses, List.pairwise_map]
    exact List.pairwise_map.mp
      (by rw [List.enum_map_fst]; exact List.sorted_lt_range _)
  have htargetNodup : ((indexedResponses requests max_deviation fetches).map
      Prod.fst).Nodup := by
    rw [indexedResponses, List.map_map]
    have hfg : (Prod.fst ∘ fun p : ℕ × DataRequest =>
        (p.1, processOne max_deviation fetches p.1 p.2)) = Prod.fst :=
      funext fun p => rfl
    rw [hfg, List.enum_map_fst]
    exact List.nodup_range _
  have hsortNodup : ((List.insertionSort (fun a b => a.1 ≤ b.1) collected).map
      Prod.fst).Nodup :=
    ((hperm2.map Prod.fst).nodup_iff).mpr htargetNodup
  haveI : IsTotal (ℕ × Option DataResponse) (fun a b => a.1 ≤ b.1) :=
    ⟨fun a b => Nat.le_total a.1 b.1⟩
  haveI : IsTrans (ℕ × Option DataResponse) (fun a b => a.1 ≤ b.1) :=
    ⟨fun _ _ _ hab hbc => Nat.le_trans hab hbc⟩
  haveI : IsAntisymm (ℕ × Option DataResponse) (fun a b => a.1 < b.1 ∨ a = b) :=
    ⟨by
      intro a b hab hba
      rcases hab with h1 | h1
      · rcases hba with h2 | h2
        · exact absurd h1 (Nat.lt_asymm h2)
        · exact h2.symm
      · exact h1⟩
  have hsorted : List.Sorted (fun a b : ℕ × Option DataResponse => a.1 ≤ b.1)
      (List.insertionSort (fun a b => a.1 ≤ b.1) collected) :=
    List.sorted_insertionSort _ _
  have hpairNe : List.Pairwise (fun a b : ℕ × Option DataResponse => a.1 ≠ b.1)
      (List.insertionSort (fun a b => a.1 ≤ b.1) collected) :=
    List.pairwise_map.mp hsortNodup
  have hpairLt : List.Pairwise (fun a b : ℕ × Option DataResponse => a.1 < b.1)
      (List.insertionSort (fun a b => a.1 ≤ b.1) collected) :=
    (List.Pairwise.and hsorted hpairNe).imp fun h => Nat.lt_of_le_of_ne h.1 h.2
  have hs1 : List.Sorted (fun a b : ℕ × Option DataResponse => a.1 < b.1 ∨ a = b)
      (List.insertionSort (fun a b => a.1 ≤ b.1) collected) :=
    hpairLt.imp fun h => Or.inl h
  have hs2 : List.Sorted (fun a b : ℕ × Option DataResponse => a.1 < b.1 ∨ a = b)
      (indexedResponses requests max_deviation fetches) :=
    htargetKeys.imp fun h => Or.inl h
  have hEq : List.insertionSort (fun a b => a.1 ≤ b.1) collected =
      indexedResponses requests max_deviation fetches :=
    List.eq_of_perm_of_sorted hperm2 hs1 hs2
  have hmain : process_data_requests_parallel collected =
      requests.enum.map (fun p => processOne max_deviation fetches p.1 p.2) := by
    rw [process_data_requests_parallel, hEq, indexedResponses, List.map_map]
    rfl
  refine ⟨hmain, ?_, ?_⟩
  · rw [hmain]
    simp [List.enum_length]
  · intro i hi
    constructor
    · rw [hmain]
      have hlen : i < (requests.enum.map
          (fun p => processOne max_deviation fetches p.1 p.2)).length := by
        simpa [List.enum_length] using hi
      rw [List.getD_eq_getElem _ _ hlen, List.getElem_map, List.getElem_enum]
      rfl
    · intro resp hresp
      exact process_fetched_data_id (requests.get ⟨i, hi⟩)
        ((fetches i).1) ((fetches i).2) max_deviation resp hresp

/-- Witness for C1: two requests whose threads completed in reverse
order — the collected vector lists index `1` first — still produce the
output in submission order. -/
theorem batch_order_preserved_witness :
    process_data_requests_parallel
      [(1, processOne 10 (fun _ => ([], [])) 1 ⟨"b", [], .Average, 1⟩),
       (0, processOne 10 (fun _ => ([], [])) 0 ⟨"a", [], .Average, 1⟩)] =
      ([⟨"a", [], .Average, 1⟩, ⟨"b", [], .Average, 1⟩] : List DataRequest).enum.map
        (fun p => processOne 10 (fun _ => ([], [])) p.1 p.2) :=
  (batch_order_preserved [⟨"a", [], .Average, 1⟩, ⟨"b", [], .Average, 1⟩] 10
    (fun _ => ([], []))
    [(1, processOne 10 (fun _ => ([], [])) 1 ⟨"b", [], .Average, 1⟩),
     (0, processOne 10 (fun _ => ([], [])) 0 ⟨"a", [], .Average, 1⟩)]
    (List.Perm.swap _ _ _)).1

end Oracle
